import Mathlib

/-
Verification of the arbitra trading core: a shallow embedding of the
paper-trading engine (src/backend/trading/paper_trading_engine.py), the
execution-variant engine (src/src/execution/paper_trading.py), the
Kelly-criterion position sizer (src/src/risk/position_sizing.py) and the
circuit-breaker bank (src/src/risk/circuit_breaker.py).

Python Decimal values are embedded as rationals (exact arithmetic, as the
source requires), datetimes as rational timestamps threaded through the
operations, and Python dicts as association lists with unique keys in
insertion order.  Fallible constructors are embedded as Except values.
-/

/-! ### Association-list helpers (Python dict semantics: unique keys) -/

/-- Dict lookup: first entry whose key matches (keys are unique in a dict). -/
def lookupKey {α β : Type} [DecidableEq α] (k : α) : List (α × β) → Option β
  | [] => none
  | (k', v) :: rest => if k = k' then some v else lookupKey k rest

/-- Dict value update at a key: rewrite the first matching entry in place. -/
def updateVal {α β : Type} [DecidableEq α] (k : α) (f : β → β) : List (α × β) → List (α × β)
  | [] => []
  | (k', v) :: rest => if k = k' then (k', f v) :: rest else (k', v) :: updateVal k f rest

/-- Dict entry deletion at a key (Python del). -/
def eraseKey {α β : Type} [DecidableEq α] (k : α) : List (α × β) → List (α × β)
  | [] => []
  | (k', v) :: rest => if k = k' then rest else (k', v) :: eraseKey k rest

/-! ### KellyCriterion and PositionSizer (src/src/risk/position_sizing.py) -/

/-- AssetTier enum from position_sizing.py. -/
inductive AssetTier : Type
  | foundation
  | growth
  | opportunity
deriving DecidableEq

/-- PositionSizeParams dataclass (defaults max_position_pct=2, max_risk_pct=10
are passed explicitly at use sites). -/
structure PositionSizeParams : Type where
  portfolioValue : ℚ
  winRate : ℚ
  avgWin : ℚ
  avgLoss : ℚ
  confidence : ℚ
  assetTier : AssetTier
  maxPositionPct : ℚ
  maxRiskPct : ℚ
deriving DecidableEq

/-- KellyCriterion.KELLY_FRACTION = Decimal("0.25"). -/
def KELLY_FRACTION : ℚ := 0.25

/-- KellyCriterion.MIN_WIN_RATE = Decimal("0.51"). -/
def MIN_WIN_RATE : ℚ := 0.51

/-- KellyCriterion.calculate: fractional-Kelly bet fraction with fail-safe
early returns, clamped into [0,1] (lines 47-89 of position_sizing.py). -/
def KellyCriterion.calculate (winRate avgWin avgLoss : ℚ) (fractional : Option ℚ) : ℚ :=
  let fr := fractional.getD KELLY_FRACTION
  if winRate < MIN_WIN_RATE then 0
  else if avgLoss = 0 then 0
  else if avgWin ≤ 0 then 0
  else
    let lossRate := 1 - winRate
    let winLossRatio := avgWin / avgLoss
    let kelly := (winRate * winLossRatio - lossRate) / winLossRatio
    let fractionalKelly := kelly * fr
    max 0 (min fractionalKelly 1)

/-- The unclamped kelly quotient (win_rate*b - (1-win_rate))/b with
b = avg_win/avg_loss, as computed on the main path of calculate. -/
def kellyRaw (winRate avgWin avgLoss : ℚ) : ℚ :=
  let winLossRatio := avgWin / avgLoss
  (winRate * winLossRatio - (1 - winRate)) / winLossRatio

/-- PositionSizer.TIER_LIMITS: per-position percentage cap by tier. -/
def TIER_LIMITS : AssetTier → ℚ
  | .foundation => 5
  | .growth => 3
  | .opportunity => 1

/-- PositionSizer.TIER_PORTFOLIO_LIMITS: portfolio-level tier caps. -/
def TIER_PORTFOLIO_LIMITS : AssetTier → ℚ
  | .foundation => 60
  | .growth => 40
  | .opportunity => 20

/-- PositionSizer._validate_params: the constructor's validation, embedded as
an Except mirroring each ValueError in source order (lines 116-131). -/
def validateParams (p : PositionSizeParams) : Except String Unit :=
  if p.portfolioValue ≤ 0 then .error "Portfolio value must be positive"
  else if ¬(0 ≤ p.winRate ∧ p.winRate ≤ 1) then .error "Win rate must be between 0 and 1"
  else if ¬(0 ≤ p.confidence ∧ p.confidence ≤ 1) then .error "Confidence must be between 0 and 1"
  else if p.avgWin ≤ 0 then .error "Average win must be positive"
  else if p.avgLoss ≤ 0 then .error "Average loss must be positive"
  else .ok ()

/-- PositionSizer.calculate_position_size (lines 133-170): dollar position
size, the minimum of four fractions of portfolio value. -/
def calculatePositionSize (p : PositionSizeParams) : ℚ :=
  let kellyFraction := KellyCriterion.calculate p.winRate p.avgWin p.avgLoss none
  let confidenceMultiplier := p.confidence * 0.5 + 0.5
  let confidenceSize := p.maxPositionPct * confidenceMultiplier / 100
  let tierLimit := TIER_LIMITS p.assetTier / 100
  let hardMax := p.maxPositionPct / 100
  let positionFraction := min (min (min kellyFraction confidenceSize) tierLimit) hardMax
  positionFraction * p.portfolioValue

/-! ### CircuitBreaker (src/src/risk/circuit_breaker.py)

Wall-clock datetimes are embedded as rational timestamps measured in
minutes (the unit of the cooling periods); datetime.now() becomes an
explicit `now` argument threaded through the mutating operations. -/

/-- BreakerType enum, in source declaration order. -/
inductive BreakerType : Type
  | dailyLoss
  | weeklyLoss
  | drawdown
  | volatility
  | liquidity
  | apiFailure
  | consecutiveLosses
deriving DecidableEq

/-- The enum members in declaration order (iteration order of the states
dict and of `for breaker_type in BreakerType`). -/
def BreakerType.all : List BreakerType :=
  [.dailyLoss, .weeklyLoss, .drawdown, .volatility, .liquidity, .apiFailure, .consecutiveLosses]

/-- BreakerState enum (COOLING is declared in the source but never assigned). -/
inductive BreakerState : Type
  | closed
  | open'
  | cooling
deriving DecidableEq

/-- BreakerConfig dataclass. -/
structure BreakerConfig : Type where
  breakerType : BreakerType
  threshold : ℚ
  coolingPeriodMinutes : ℤ
  enabled : Bool
deriving DecidableEq

/-- BreakerEvent dataclass.  The formatted message string of the source is
carried opaquely (numeric string formatting is presentation only). -/
structure BreakerEvent : Type where
  breakerType : BreakerType
  timestamp : ℚ
  threshold : ℚ
  actualValue : ℚ
  message : String
deriving DecidableEq

/-- CircuitBreaker.DEFAULT_CONFIGS. -/
def DEFAULT_CONFIGS : BreakerType → BreakerConfig
  | .dailyLoss => ⟨.dailyLoss, 5.0, 120, true⟩
  | .weeklyLoss => ⟨.weeklyLoss, 10.0, 1440, true⟩
  | .drawdown => ⟨.drawdown, 15.0, 2880, true⟩
  | .volatility => ⟨.volatility, 100.0, 60, true⟩
  | .liquidity => ⟨.liquidity, 50000, 30, true⟩
  | .apiFailure => ⟨.apiFailure, 3, 15, true⟩
  | .consecutiveLosses => ⟨.consecutiveLosses, 5, 240, true⟩

/-- CircuitBreaker instance state. -/
structure CircuitBreaker : Type where
  configs : BreakerType → BreakerConfig
  states : BreakerType → BreakerState
  tripTimes : BreakerType → Option ℚ
  events : List BreakerEvent
  consecutiveLosses : ℕ
  consecutiveApiFailures : ℕ

/-- CircuitBreaker.__init__ with default configs: everything CLOSED, no trip
times, no events, zeroed counters. -/
def CircuitBreaker.init : CircuitBreaker :=
  ⟨DEFAULT_CONFIGS, fun _ => .closed, fun _ => none, [], 0, 0⟩

/-- CircuitBreaker._trip_breaker: set state OPEN, stamp the trip time, append
an immutable event. -/
def tripBreaker (cb : CircuitBreaker) (bt : BreakerType) (threshold actualValue : ℚ)
    (message : String) (now : ℚ) : CircuitBreaker :=
  { cb with
    states := Function.update cb.states bt .open'
    tripTimes := Function.update cb.tripTimes bt (some now)
    events := cb.events ++ [⟨bt, now, threshold, actualValue, message⟩] }

/-- CircuitBreaker.check_daily_loss (lines 117-146): strict > comparison of
the loss percentage against the threshold. -/
def checkDailyLoss (cb : CircuitBreaker) (currentValue startOfDayValue now : ℚ) :
    CircuitBreaker × Bool :=
  if ¬(cb.configs .dailyLoss).enabled then (cb, false)
  else if startOfDayValue ≤ 0 then (cb, false)
  else
    let lossPct := ((startOfDayValue - currentValue) / startOfDayValue) * 100
    let threshold := (cb.configs .dailyLoss).threshold
    if lossPct > threshold then
      (tripBreaker cb .dailyLoss threshold lossPct "Daily loss exceeds threshold" now, true)
    else (cb, false)

/-- CircuitBreaker._is_cooling_period_expired (lines 328-337): elapsed time
since the trip is at least the configured cooling period (>= comparison). -/
def isCoolingPeriodExpired (cb : CircuitBreaker) (bt : BreakerType) (now : ℚ) : Bool :=
  match cb.tripTimes bt with
  | none => true
  | some tripTime => now - tripTime ≥ ((cb.configs bt).coolingPeriodMinutes : ℚ)

/-- The sweep inside is_trading_allowed: walk the breakers in dict order,
auto-closing any OPEN breaker whose cooldown expired, stopping at the first
OPEN breaker that has not cooled down. -/
def tradingAllowedSweep (cb : CircuitBreaker) (now : ℚ) :
    List BreakerType → CircuitBreaker × Bool
  | [] => (cb, true)
  | bt :: rest =>
    if cb.states bt = .open' then
      if isCoolingPeriodExpired cb bt now then
        tradingAllowedSweep
          { cb with
            states := Function.update cb.states bt .closed
            tripTimes := Function.update cb.tripTimes bt none }
          now rest
      else (cb, false)
    else tradingAllowedSweep cb now rest

/-- CircuitBreaker.is_trading_allowed (lines 309-326). -/
def isTradingAllowed (cb : CircuitBreaker) (now : ℚ) : CircuitBreaker × Bool :=
  tradingAllowedSweep cb now BreakerType.all

/-! ### PaperTradingEngine (src/backend/trading/paper_trading_engine.py)

Order ids are embedded as the value of the monotonic order counter (the
source wraps the counter and the current date into a string; the counter is
what makes ids unique).  datetime.now() becomes an explicit `now` argument. -/

/-- Position dataclass of the backend engine. -/
structure Position : Type where
  symbol : String
  quantity : ℚ
  entryPrice : ℚ
  entryTime : ℚ
  side : String
  currentPrice : ℚ
  realizedPl : ℚ
deriving DecidableEq

/-- Trade dataclass of the backend engine. -/
structure Trade : Type where
  symbol : String
  side : String
  quantity : ℚ
  price : ℚ
  commission : ℚ
  timestamp : ℚ
  orderId : ℕ
deriving DecidableEq

/-- Order dataclass of the backend engine. -/
structure Order : Type where
  orderId : ℕ
  symbol : String
  side : String
  quantity : ℚ
  orderType : String
  limitPrice : Option ℚ
  status : String
  submittedAt : ℚ
  filledAt : Option ℚ
  filledPrice : Option ℚ
deriving DecidableEq

/-- PaperTradingEngine instance state. -/
structure PaperTradingEngine : Type where
  initialCapital : ℚ
  cash : ℚ
  positions : List (String × Position)
  trades : List Trade
  orders : List (ℕ × Order)
  enableSlippage : Bool
  slippageBps : ℚ
  enableCommission : Bool
  commissionPerShare : ℚ
  orderCounter : ℕ
deriving DecidableEq

/-- PaperTradingEngine.__init__. -/
def initEngine (initialCapital : ℚ) (enableSlippage : Bool) (slippageBps : ℚ)
    (enableCommission : Bool) (commissionPerShare : ℚ) : PaperTradingEngine :=
  ⟨initialCapital, initialCapital, [], [], [], enableSlippage, slippageBps,
    enableCommission, commissionPerShare, 0⟩

/-- PaperTradingEngine._calculate_slippage: flat basis-point adjustment, up
for buys and down for anything else (lines 174-199). -/
def calcSlippage (e : PaperTradingEngine) (price : ℚ) (side : String) : ℚ :=
  if ¬e.enableSlippage then price
  else
    let slippagePct := e.slippageBps / 10000
    if side = "buy" then price * (1 + slippagePct) else price * (1 - slippagePct)

/-- PaperTradingEngine._calculate_commission (lines 201-206). -/
def calcCommission (e : PaperTradingEngine) (quantity : ℚ) : ℚ :=
  if ¬e.enableCommission then 0 else quantity * e.commissionPerShare

/-- PaperTradingEngine.submit_order (lines 208-246): unconditionally records
a PENDING order under a fresh counter-derived id; no validation, no fund
reservation. -/
def submitOrder (e : PaperTradingEngine) (symbol side : String) (quantity : ℚ)
    (orderType : String) (limitPrice : Option ℚ) (now : ℚ) :
    PaperTradingEngine × Order :=
  let counter := e.orderCounter + 1
  let order : Order := ⟨counter, symbol, side, quantity, orderType, limitPrice,
    "pending", now, none, none⟩
  ({ e with orderCounter := counter, orders := e.orders ++ [(counter, order)] }, order)

/-- The resting-limit test inside fill_order (lines 272-282).  Mirrors the
Python truthiness guard `if order.order_type == "limit" and order.limit_price:`
(a missing or zero limit price skips the check entirely). -/
def limitBlocks (o : Order) (currentPrice : ℚ) : Bool :=
  if o.orderType = "limit" then
    match o.limitPrice with
    | some lp =>
      if lp = 0 then false
      else if o.side = "buy" ∧ currentPrice > lp then true
      else if o.side = "sell" ∧ currentPrice < lp then true
      else false
    | none => false
  else false

/-- Mark an order cancelled in the order table. -/
def cancelAt (oid : ℕ) (orders : List (ℕ × Order)) : List (ℕ × Order) :=
  updateVal oid (fun o => { o with status := "cancelled" }) orders

/-- The successful-fill epilogue of fill_order (lines 368-390): append the
Trade record and transition the order to FILLED with fill timestamp/price. -/
def finishFill (e : PaperTradingEngine) (order : Order) (oid : ℕ)
    (fillPrice commission now : ℚ) : PaperTradingEngine × Option Trade :=
  let trade : Trade := ⟨order.symbol, order.side, order.quantity, fillPrice,
    commission, now, oid⟩
  ({ e with
      trades := e.trades ++ [trade]
      orders := updateVal oid
        (fun o => { o with status := "filled", filledAt := some now,
                           filledPrice := some fillPrice }) e.orders },
    some trade)

/-- PaperTradingEngine.fill_order (lines 248-390). -/
def fillOrder (e : PaperTradingEngine) (oid : ℕ) (currentPrice now : ℚ) :
    PaperTradingEngine × Option Trade :=
  match lookupKey oid e.orders with
  | none => (e, none)
  | some order =>
    if order.status ≠ "pending" then (e, none)
    else if limitBlocks order currentPrice then (e, none)
    else
      let fillPrice := calcSlippage e currentPrice order.side
      let commission := calcCommission e order.quantity
      if order.side = "buy" then
        let totalCost := fillPrice * order.quantity + commission
        if totalCost > e.cash then
          ({ e with orders := cancelAt oid e.orders }, none)
        else
          let e1 := { e with cash := e.cash - totalCost }
          let e2 :=
            match lookupKey order.symbol e1.positions with
            | some pos =>
              let totalQuantity := pos.quantity + order.quantity
              let newEntry := (pos.entryPrice * pos.quantity + fillPrice * order.quantity)
                / totalQuantity
              let positions' := updateVal order.symbol
                (fun p => { p with entryPrice := newEntry, quantity := totalQuantity })
                e1.positions
              { e1 with positions := positions' }
            | none =>
              let newPos : Position := ⟨order.symbol, order.quantity, fillPrice, now,
                "long", currentPrice, 0⟩
              { e1 with positions := e1.positions ++ [(order.symbol, newPos)] }
          finishFill e2 order oid fillPrice commission now
      else
        match lookupKey order.symbol e.positions with
        | none => ({ e with orders := cancelAt oid e.orders }, none)
        | some pos =>
          if order.quantity > pos.quantity then
            ({ e with orders := cancelAt oid e.orders }, none)
          else
            let proceeds := fillPrice * order.quantity - commission
            let realized := (fillPrice - pos.entryPrice) * order.quantity
            let newQty := pos.quantity - order.quantity
            let positions' :=
              if newQty = 0 then eraseKey order.symbol e.positions
              else updateVal order.symbol
                (fun p => { p with realizedPl := p.realizedPl + realized,
                                   quantity := newQty }) e.positions
            finishFill { e with cash := e.cash + proceeds, positions := positions' }
              order oid fillPrice commission now

/-- PaperTradingEngine.cancel_order (lines 392-405). -/
def cancelOrder (e : PaperTradingEngine) (oid : ℕ) : PaperTradingEngine × Bool :=
  match lookupKey oid e.orders with
  | none => (e, false)
  | some order =>
    if order.status ≠ "pending" then (e, false)
    else ({ e with orders := cancelAt oid e.orders }, true)

/-- PaperTradingEngine.update_prices (lines 407-416): mark every open
position whose symbol appears in the price map. -/
def updatePrices (e : PaperTradingEngine) (prices : List (String × ℚ)) :
    PaperTradingEngine :=
  { e with positions := e.positions.map (fun sp =>
      match lookupKey sp.1 prices with
      | some price => (sp.1, { sp.2 with currentPrice := price })
      | none => sp) }

/-- PaperTradingEngine.reset (lines 482-490). -/
def resetEngine (e : PaperTradingEngine) : PaperTradingEngine :=
  { e with cash := e.initialCapital, positions := [], trades := [], orders := [],
           orderCounter := 0 }

/-! ### Execution-variant engine (src/src/execution/paper_trading.py)

Only the state touched by execute_buy is embedded (cash, positions and the
fee/slippage rates); the closed-trade ledger and performance tracking are
untouched by a buy. -/

/-- PaperPosition dataclass of the execution-variant engine. -/
structure PaperPosition : Type where
  symbol : String
  entryPrice : ℚ
  quantity : ℚ
  entryTime : ℚ
  stopLoss : Option ℚ
  takeProfit : Option ℚ
  feesPaid : ℚ
  strategy : String
  confidence : ℚ
deriving DecidableEq

/-- The execution-variant engine state used by execute_buy. -/
structure ExecEngine : Type where
  initialCapital : ℚ
  cash : ℚ
  feeRate : ℚ
  slippageRate : ℚ
  positions : List (String × PaperPosition)
deriving DecidableEq

/-- PaperTradingEngine.execute_buy of the execution variant (lines 107-189):
validates quantity and price by returning False (a soft failure, not an
exception), checks funds, single-position-per-symbol, and the stop/target
ordering (with Python truthiness on the optional prices), then opens the
position. -/
def executeBuy (e : ExecEngine) (symbol : String) (quantity price : ℚ)
    (stopLoss takeProfit : Option ℚ) (strategy : String) (confidence now : ℚ) :
    ExecEngine × Bool :=
  if quantity ≤ 0 then (e, false)
  else if price ≤ 0 then (e, false)
  else
    let executionPrice := price * (1 + e.slippageRate)
    let cost := executionPrice * quantity
    let fees := cost * e.feeRate
    let totalCost := cost + fees
    if totalCost > e.cash then (e, false)
    else if (lookupKey symbol e.positions).isSome then (e, false)
    else if (match stopLoss with
             | some sl => decide (sl ≠ 0 ∧ sl ≥ executionPrice)
             | none => false) then (e, false)
    else if (match takeProfit with
             | some tp => decide (tp ≠ 0 ∧ tp ≤ executionPrice)
             | none => false) then (e, false)
    else
      let newPos : PaperPosition := ⟨symbol, executionPrice, quantity, now,
        stopLoss, takeProfit, fees, strategy, confidence⟩
      ({ e with cash := e.cash - totalCost,
                positions := e.positions ++ [(symbol, newPos)] }, true)

/-! ### Operation sequences over the backend engine (for the cash invariant) -/

/-- One caller-visible mutating operation of the backend engine. -/
inductive Op : Type
  | submit (symbol side : String) (quantity : ℚ) (orderType : String)
      (limitPrice : Option ℚ) (now : ℚ)
  | fill (oid : ℕ) (currentPrice now : ℚ)
  | cancel (oid : ℕ)
  | update (prices : List (String × ℚ))
  | reset
deriving DecidableEq

/-- Run one operation, discarding the returned value. -/
def runOp (e : PaperTradingEngine) : Op → PaperTradingEngine
  | .submit symbol side quantity orderType limitPrice now =>
    (submitOrder e symbol side quantity orderType limitPrice now).1
  | .fill oid currentPrice now => (fillOrder e oid currentPrice now).1
  | .cancel oid => (cancelOrder e oid).1
  | .update prices => updatePrices e prices
  | .reset => resetEngine e

/-- Run a sequence of operations in call order. -/
def runOps (e : PaperTradingEngine) (ops : List Op) : PaperTradingEngine :=
  ops.foldl runOp e

/-- The effective per-share commission (0 when commission is disabled). -/
def effCommissionPerShare (e : PaperTradingEngine) : ℚ :=
  if e.enableCommission then e.commissionPerShare else 0

/-- The price a sell fill realizes after slippage. -/
def sellFillPrice (e : PaperTradingEngine) (price : ℚ) : ℚ :=
  if e.enableSlippage then price * (1 - e.slippageBps / 10000) else price

/-- Well-formedness of an operation relative to the engine's (immutable)
settings: submitted quantities are positive, and every price handed to
fill_order nets at least the per-share commission after sell slippage, so a
sell's proceeds cannot be negative. -/
def validOp (e : PaperTradingEngine) : Op → Prop
  | .submit _ _ quantity _ _ _ => 0 < quantity
  | .fill _ currentPrice _ => effCommissionPerShare e ≤ sellFillPrice e currentPrice
  | _ => True

instance (e : PaperTradingEngine) (op : Op) : Decidable (validOp e op) := by
  unfold validOp
  cases op <;> infer_instance

/-- The constructor-settings quadruple, constant across every operation. -/
def settingsOf (e : PaperTradingEngine) : Bool × ℚ × Bool × ℚ :=
  (e.enableSlippage, e.slippageBps, e.enableCommission, e.commissionPerShare)

/-! ### Concrete sample states used by witnesses and counterexamples -/

/-- An engine with 10 of capital, slippage disabled, commission of 0.005 per
share: the constructor defaults except for capital and slippage. -/
def egTiny : PaperTradingEngine := initEngine 10 false 5 true 0.005

/-- Buy the whole bankroll, then sell at a price below the per-share
commission: every quantity and price is positive. -/
def opsTiny : List Op :=
  [.submit "AAA" "buy" 1 "market" none 0,
   .fill 1 9.995 0,
   .submit "AAA" "sell" 1 "market" none 0,
   .fill 2 0.001 0]

/-- A pending 10-share market buy that costs far more than the cash held. -/
def bigBuyOrder : Order := ⟨1, "AAA", "buy", 10, "market", none, "pending", 0, none, none⟩

/-- Engine with 100 cash and the unaffordable pending buy (no slippage, no
commission). -/
def egPoor : PaperTradingEngine := ⟨100, 100, [], [], [(1, bigBuyOrder)], false, 5, false, 0.005, 1⟩

/-- Engine whose only order is already cancelled. -/
def egCancelled : PaperTradingEngine :=
  ⟨100, 100, [], [], [(1, { bigBuyOrder with status := "cancelled" })], false, 5, false, 0.005, 1⟩

/-- A pending limit buy resting at 50. -/
def limitBuyOrder : Order := ⟨1, "AAA", "buy", 1, "limit", some 50, "pending", 0, none, none⟩

/-- Engine with ample cash and the resting limit buy. -/
def egLimit : PaperTradingEngine := ⟨1000, 1000, [], [], [(1, limitBuyOrder)], false, 5, false, 0.005, 1⟩

/-- A pending limit buy whose limit price is the falsy Decimal("0"). -/
def zeroLimitOrder : Order := ⟨1, "AAA", "buy", 1, "limit", some 0, "pending", 0, none, none⟩

/-- Engine with ample cash and the zero-priced limit buy. -/
def egZeroLimit : PaperTradingEngine := ⟨1000, 1000, [], [], [(1, zeroLimitOrder)], false, 5, false, 0.005, 1⟩

/-- A pending 5-share market sell in a symbol the engine does not hold. -/
def strandedSellOrder : Order := ⟨1, "BBB", "sell", 5, "market", none, "pending", 0, none, none⟩

/-- Engine holding no positions but carrying the stranded sell. -/
def egNoPos : PaperTradingEngine := ⟨100, 100, [], [], [(1, strandedSellOrder)], false, 5, false, 0.005, 1⟩

/-- An open 10-share long position in AAA at entry 50. -/
def posAAA : Position := ⟨"AAA", 10, 50, 0, "long", 50, 0⟩

/-- A pending 10-share market buy that adds to the AAA position. -/
def addBuyOrder : Order := ⟨2, "AAA", "buy", 10, "market", none, "pending", 0, none, none⟩

/-- Engine holding the AAA position with a pending add-on buy. -/
def egAdd : PaperTradingEngine :=
  ⟨10000, 10000, [("AAA", posAAA)], [], [(2, addBuyOrder)], false, 5, false, 0.005, 2⟩

/-- A pending 25-share market sell against the 10-share AAA position. -/
def oversizeSellOrder : Order := ⟨2, "AAA", "sell", 25, "market", none, "pending", 0, none, none⟩

/-- Engine holding 10 AAA shares with a pending oversized sell. -/
def egOversize : PaperTradingEngine :=
  ⟨10000, 10000, [("AAA", posAAA)], [], [(2, oversizeSellOrder)], false, 5, false, 0.005, 2⟩

/-- A valid PositionSizeParams sample (growth tier, defaults for the caps). -/
def pSample : PositionSizeParams := ⟨10000, 0.6, 2, 1, 0.8, .growth, 2, 10⟩

/-- An execution-variant engine fresh at 10000 with the constructor's default
fee and slippage rates. -/
def egExec : ExecEngine := ⟨10000, 10000, 0.001, 0.002, []⟩

/-- The cash invariant carried across operation sequences: nonnegative cash,
nonnegative initial capital (reset restores it into cash), and positive
quantity on every recorded order. -/
def EngineInv (e : PaperTradingEngine) : Prop :=
  0 ≤ e.cash ∧ 0 ≤ e.initialCapital ∧ ∀ p ∈ e.orders, 0 < (p.2 : Order).quantity

/-! ### Association-list lemmas -/

theorem lookupKey_mem {α β : Type} [DecidableEq α] {k : α} {v : β} :
    ∀ {l : List (α × β)}, lookupKey k l = some v → (k, v) ∈ l := by
  intro l
  induction l with
  | nil => intro h; simp [lookupKey] at h
  | cons hd tl ih =>
    intro h
    obtain ⟨k', v'⟩ := hd
    by_cases hk : k = k'
    · subst hk
      simp [lookupKey] at h
      subst h
      exact List.mem_cons_self _ _
    · simp only [lookupKey, if_neg hk] at h
      exact List.mem_cons_of_mem _ (ih h)

theorem lookupKey_updateVal {α β : Type} [DecidableEq α] (k : α) (f : β → β) :
    ∀ l : List (α × β), lookupKey k (updateVal k f l) = (lookupKey k l).map f := by
  intro l
  induction l with
  | nil => simp [lookupKey, updateVal]
  | cons hd tl ih =>
    obtain ⟨k', v'⟩ := hd
    by_cases hk : k = k'
    · simp [lookupKey, updateVal, if_pos hk]
    · simp [lookupKey, updateVal, if_neg hk, ih]

theorem lookupKey_append_of_none {α β : Type} [DecidableEq α] {k : α} {l₁ : List (α × β)}
    (l₂ : List (α × β)) (h : lookupKey k l₁ = none) :
    lookupKey k (l₁ ++ l₂) = lookupKey k l₂ := by
  induction l₁ with
  | nil => simp
  | cons hd tl ih =>
    obtain ⟨k', v'⟩ := hd
    by_cases hk : k = k'
    · simp only [lookupKey, if_pos hk] at h
      exact absurd h (by simp)
    · simp only [lookupKey, if_neg hk] at h ⊢
      exact ih h

theorem updateVal_pred {α β : Type} [DecidableEq α] {P : β → Prop} {k : α} {f : β → β}
    (hf : ∀ v, P v → P (f v)) :
    ∀ {l : List (α × β)}, (∀ p ∈ l, P p.2) → ∀ p ∈ updateVal k f l, P p.2 := by
  intro l
  induction l with
  | nil => intro _ p hp; simp [updateVal] at hp
  | cons hd tl ih =>
    intro hl p hp
    obtain ⟨k', v'⟩ := hd
    by_cases hk : k = k'
    · simp only [updateVal, if_pos hk] at hp
      rcases List.mem_cons.mp hp with h | h
      · subst h; exact hf _ (hl (k', v') (List.mem_cons_self _ _))
      · exact hl p (List.mem_cons_of_mem _ h)
    · simp only [updateVal, if_neg hk] at hp
      rcases List.mem_cons.mp hp with h | h
      · subst h; exact hl (k', v') (List.mem_cons_self _ _)
      · exact ih (fun q hq => hl q (List.mem_cons_of_mem _ hq)) p h

/-! ### Engine bookkeeping lemmas -/

theorem calcCommission_eq (e : PaperTradingEngine) (q : ℚ) :
    calcCommission e q = q * effCommissionPerShare e := by
  unfold calcCommission effCommissionPerShare
  by_cases h : e.enableCommission <;> simp [h]

theorem calcSlippage_of_not_buy (e : PaperTradingEngine) (price : ℚ) {side : String}
    (h : side ≠ "buy") : calcSlippage e price side = sellFillPrice e price := by
  unfold calcSlippage sellFillPrice
  by_cases hs : e.enableSlippage <;> simp [hs, h]

theorem settings_fields {e e' : PaperTradingEngine} (h : settingsOf e = settingsOf e') :
    e.enableSlippage = e'.enableSlippage ∧ e.slippageBps = e'.slippageBps ∧
      e.enableCommission = e'.enableCommission ∧
      e.commissionPerShare = e'.commissionPerShare := by
  unfold settingsOf at h
  simpa [Prod.ext_iff] using h

theorem effCommissionPerShare_congr {e e' : PaperTradingEngine}
    (h : settingsOf e = settingsOf e') :
    effCommissionPerShare e = effCommissionPerShare e' := by
  obtain ⟨h1, _, h3, h4⟩ := settings_fields h
  unfold effCommissionPerShare
  rw [h3, h4]

theorem sellFillPrice_congr {e e' : PaperTradingEngine} (price : ℚ)
    (h : settingsOf e = settingsOf e') :
    sellFillPrice e price = sellFillPrice e' price := by
  obtain ⟨h1, h2, _, _⟩ := settings_fields h
  unfold sellFillPrice
  rw [h1, h2]

theorem settingsOf_finishFill (e : PaperTradingEngine) (o : Order) (oid : ℕ)
    (fp c t : ℚ) : settingsOf (finishFill e o oid fp c t).1 = settingsOf e := rfl

theorem settingsOf_fillOrder (e : PaperTradingEngine) (oid : ℕ) (price t : ℚ) :
    settingsOf (fillOrder e oid price t).1 = settingsOf e := by
  unfold fillOrder
  cases h : lookupKey oid e.orders with
  | none => rfl
  | some order =>
    dsimp only
    split
    · rfl
    · split
      · rfl
      · split
        · split
          · rfl
          · split <;> rfl
        · split
          · rfl
          · split
            · rfl
            · rfl

theorem settingsOf_runOp (e : PaperTradingEngine) (op : Op) :
    settingsOf (runOp e op) = settingsOf e := by
  cases op with
  | submit symbol side quantity orderType limitPrice now => rfl
  | fill oid currentPrice now => exact settingsOf_fillOrder e oid currentPrice now
  | cancel oid =>
    show settingsOf (cancelOrder e oid).1 = settingsOf e
    unfold cancelOrder
    cases h : lookupKey oid e.orders with
    | none => rfl
    | some order => dsimp only; split <;> rfl
  | update prices => rfl
  | reset => rfl

/-! ### Cash-invariant preservation -/

theorem quantity_preserved_updateVal (oid : ℕ) (f : Order → Order)
    (hf : ∀ o : Order, (f o).quantity = o.quantity) {l : List (ℕ × Order)}
    (h : ∀ p ∈ l, 0 < (p.2 : Order).quantity) :
    ∀ p ∈ updateVal oid f l, 0 < (p.2 : Order).quantity := by
  refine updateVal_pred (P := fun o : Order => 0 < o.quantity) ?_ h
  intro v hv
  rw [hf v]
  exact hv

theorem inv_fillOrder {e0 : PaperTradingEngine} (e : PaperTradingEngine) (oid : ℕ)
    (price t : ℚ) (hs : settingsOf e = settingsOf e0) (hinv : EngineInv e)
    (hop : effCommissionPerShare e0 ≤ sellFillPrice e0 price) :
    EngineInv (fillOrder e oid price t).1 := by
  obtain ⟨hcash, hinit, hq⟩ := hinv
  have hsell : effCommissionPerShare e ≤ sellFillPrice e price := by
    rw [effCommissionPerShare_congr hs, sellFillPrice_congr price hs]
    exact hop
  cases hl : lookupKey oid e.orders with
  | none => simp only [fillOrder, hl]; exact ⟨hcash, hinit, hq⟩
  | some order =>
    have hqo : 0 < order.quantity := hq (oid, order) (lookupKey_mem hl)
    simp only [fillOrder, hl]
    split
    · exact ⟨hcash, hinit, hq⟩
    · split
      · exact ⟨hcash, hinit, hq⟩
      · split
        · -- buy side
          rename_i hside
          split
          · -- insufficient funds: order cancelled, cash untouched
            refine ⟨hcash, hinit, ?_⟩
            dsimp only [cancelAt]
            exact quantity_preserved_updateVal _ _ (fun o => by rfl) hq
          · -- funds suffice: cash decreases by at most itself
            rename_i hcost
            rw [not_lt] at hcost
            split
            · refine ⟨by dsimp only [finishFill]; linarith, hinit, ?_⟩
              dsimp only [finishFill]
              exact quantity_preserved_updateVal _ _ (fun o => by rfl) hq
            · refine ⟨by dsimp only [finishFill]; linarith, hinit, ?_⟩
              dsimp only [finishFill]
              exact quantity_preserved_updateVal _ _ (fun o => by rfl) hq
        · -- sell side
          rename_i hside
          split
          · refine ⟨hcash, hinit, ?_⟩
            dsimp only [cancelAt]
            exact quantity_preserved_updateVal _ _ (fun o => by rfl) hq
          · rename_i pos hpos
            split
            · refine ⟨hcash, hinit, ?_⟩
              dsimp only [cancelAt]
              exact quantity_preserved_updateVal _ _ (fun o => by rfl) hq
            · have hfp : calcSlippage e price order.side = sellFillPrice e price :=
                calcSlippage_of_not_buy e price hside
              have hproceeds : 0 ≤ calcSlippage e price order.side * order.quantity
                  - calcCommission e order.quantity := by
                rw [hfp, calcCommission_eq]
                nlinarith [mul_nonneg (le_of_lt hqo) (sub_nonneg.mpr hsell)]
              refine ⟨by dsimp only [finishFill]; linarith, hinit, ?_⟩
              dsimp only [finishFill]
              exact quantity_preserved_updateVal _ _ (fun o => by rfl) hq

theorem inv_runOp {e0 : PaperTradingEngine} (e : PaperTradingEngine) (op : Op)
    (hs : settingsOf e = settingsOf e0) (hinv : EngineInv e) (hop : validOp e0 op) :
    EngineInv (runOp e op) := by
  obtain ⟨hcash, hinit, hq⟩ := hinv
  cases op with
  | submit symbol side quantity orderType limitPrice now =>
    refine ⟨hcash, hinit, ?_⟩
    dsimp only [runOp, submitOrder]
    intro p hp
    rcases List.mem_append.mp hp with h | h
    · exact hq p h
    · rw [List.mem_singleton.mp h]
      exact hop
  | fill oid currentPrice now =>
    exact inv_fillOrder e oid currentPrice now hs ⟨hcash, hinit, hq⟩ hop
  | cancel oid =>
    show EngineInv (cancelOrder e oid).1
    unfold cancelOrder
    cases hl : lookupKey oid e.orders with
    | none => exact ⟨hcash, hinit, hq⟩
    | some order =>
      dsimp only
      split
      · exact ⟨hcash, hinit, hq⟩
      · refine ⟨hcash, hinit, ?_⟩
        dsimp only [cancelAt]
        exact quantity_preserved_updateVal _ _ (fun o => by rfl) hq
  | update prices => exact ⟨hcash, hinit, hq⟩
  | reset =>
    refine ⟨hinit, hinit, ?_⟩
    intro p hp
    simp [runOp, resetEngine] at hp
  
theorem inv_runOps {e0 : PaperTradingEngine} (ops : List Op) :
    ∀ e : PaperTradingEngine, settingsOf e = settingsOf e0 → EngineInv e →
      (∀ op ∈ ops, validOp e0 op) → EngineInv (runOps e ops) := by
  induction ops with
  | nil => intro e _ hinv _; exact hinv
  | cons op rest ih =>
    intro e hs hinv hops
    have h1 := inv_runOp e op hs hinv (hops op (List.mem_cons_self _ _))
    have h2 : settingsOf (runOp e op) = settingsOf e0 := (settingsOf_runOp e op).trans hs
    exact ih (runOp e op) h2 h1 (fun o ho => hops o (List.mem_cons_of_mem _ ho))

/-! ### Claim theorems -/

/-- C1 (amended): starting from a positive initial capital, cash stays
nonnegative across every sequence of submit/fill/cancel/update_prices/reset
operations in which submitted quantities are positive and every price handed
to fill_order nets at least the per-share commission after sell slippage;
and a buy fill whose total cost (fill price x quantity + commission)
exceeds available cash is rejected without any cash change, returning null.
(As literally stated the claim is false: see the counterexample, where a
sell whose commission exceeds its proceeds drives cash negative.) -/
theorem c1_cash_never_negative :
    (∀ (cap : ℚ) (es : Bool) (sb : ℚ) (ec : Bool) (cps : ℚ) (ops : List Op),
        0 < cap →
        (∀ op ∈ ops, validOp (initEngine cap es sb ec cps) op) →
        0 ≤ (runOps (initEngine cap es sb ec cps) ops).cash)
    ∧ (∀ (e : PaperTradingEngine) (oid : ℕ) (price t : ℚ) (o : Order),
        lookupKey oid e.orders = some o → o.side = "buy" →
        e.cash < calcSlippage e price o.side * o.quantity + calcCommission e o.quantity →
        (fillOrder e oid price t).1.cash = e.cash ∧ (fillOrder e oid price t).2 = none) := by
  constructor
  · intro cap es sb ec cps ops hcap hops
    have hinv : EngineInv (initEngine cap es sb ec cps) := by
      refine ⟨le_of_lt hcap, le_of_lt hcap, ?_⟩
      intro p hp
      simp [initEngine] at hp
    exact (inv_runOps ops (initEngine cap es sb ec cps) rfl hinv hops).1
  · intro e oid price t o hl hside hcost
    simp only [fillOrder, hl]
    split
    · exact ⟨rfl, rfl⟩
    · split
      · exact ⟨rfl, rfl⟩
      · exact ⟨rfl, rfl⟩

/-- C1 witness: a concrete run of the preserved invariant (one affordable
submit on a fresh engine) and a concrete rejected buy (a 10-share order
against 100 of cash), discharging every hypothesis. -/
theorem c1_witness :
    (0 ≤ (runOps (initEngine 100 true 5 true 0.005)
        [Op.submit "AAA" "buy" 1 "market" none 0]).cash)
    ∧ ((fillOrder egPoor 1 100 0).1.cash = egPoor.cash
        ∧ (fillOrder egPoor 1 100 0).2 = none) :=
  ⟨c1_cash_never_negative.1 100 true 5 true 0.005 _ (by norm_num)
      (of_decide_eq_true (by with_unfolding_all rfl)),
   c1_cash_never_negative.2 egPoor 1 100 0 bigBuyOrder (by with_unfolding_all rfl) rfl
      (of_decide_eq_true (by with_unfolding_all rfl))⟩

/-- C1 counterexample: from the positive initial capital 10 (slippage off,
commission 0.005 per share as in the constructor default), buying one share
at 9.995 and then selling it at the positive price 0.001 leaves cash at
-0.004: the sell's commission exceeds its proceeds, so the claimed invariant
fails on the engine as written. -/
theorem c1_counterexample : (0 : ℚ) < 10 ∧ (runOps egTiny opsTiny).cash < 0 :=
  ⟨by norm_num, of_decide_eq_true (by with_unfolding_all rfl)⟩

/-- C2: for every validly constructed PositionSizer, calculate_position_size
returns exactly the minimum of the four fractions of portfolio value (the
fractional-Kelly fraction, max_position_pct x (0.5 + 0.5 x confidence), the
per-tier cap, and max_position_pct itself), so it never exceeds
portfolio_value x max_position_pct/100 nor portfolio_value times the tier
percentage cap. -/
theorem c2_position_size_min_of_four :
    ∀ p : PositionSizeParams, validateParams p = Except.ok () →
      calculatePositionSize p =
        min (min
          (min (KellyCriterion.calculate p.winRate p.avgWin p.avgLoss none * p.portfolioValue)
            (p.maxPositionPct * (0.5 + 0.5 * p.confidence) / 100 * p.portfolioValue))
          (TIER_LIMITS p.assetTier / 100 * p.portfolioValue))
          (p.maxPositionPct / 100 * p.portfolioValue)
      ∧ calculatePositionSize p ≤ p.portfolioValue * p.maxPositionPct / 100
      ∧ calculatePositionSize p ≤ p.portfolioValue * TIER_LIMITS p.assetTier / 100 := by
  intro p hv
  have hpv : 0 < p.portfolioValue := by
    by_contra hc
    push_neg at hc
    unfold validateParams at hv
    rw [if_pos hc] at hv
    simp at hv
  have hconf : p.maxPositionPct * (p.confidence * 0.5 + 0.5) / 100
      = p.maxPositionPct * (0.5 + 0.5 * p.confidence) / 100 := by ring
  refine ⟨?_, ?_, ?_⟩
  · unfold calculatePositionSize
    dsimp only
    rw [hconf, min_mul_of_nonneg _ _ hpv.le, min_mul_of_nonneg _ _ hpv.le,
      min_mul_of_nonneg _ _ hpv.le]
  · unfold calculatePositionSize
    dsimp only
    calc min (min (min (KellyCriterion.calculate p.winRate p.avgWin p.avgLoss none)
          (p.maxPositionPct * (p.confidence * 0.5 + 0.5) / 100))
          (TIER_LIMITS p.assetTier / 100)) (p.maxPositionPct / 100) * p.portfolioValue
        ≤ p.maxPositionPct / 100 * p.portfolioValue :=
          mul_le_mul_of_nonneg_right (min_le_right _ _) hpv.le
      _ = p.portfolioValue * p.maxPositionPct / 100 := by ring
  · unfold calculatePositionSize
    dsimp only
    calc min (min (min (KellyCriterion.calculate p.winRate p.avgWin p.avgLoss none)
          (p.maxPositionPct * (p.confidence * 0.5 + 0.5) / 100))
          (TIER_LIMITS p.assetTier / 100)) (p.maxPositionPct / 100) * p.portfolioValue
        ≤ TIER_LIMITS p.assetTier / 100 * p.portfolioValue := by
          refine mul_le_mul_of_nonneg_right ?_ hpv.le
          exact le_trans (min_le_left _ _) (min_le_right _ _)
      _ = p.portfolioValue * TIER_LIMITS p.assetTier / 100 := by ring

/-- C2 witness: the sample growth-tier parameters pass validation and the
theorem's conclusion holds for them. -/
theorem c2_witness :
    validateParams pSample = Except.ok ()
    ∧ (calculatePositionSize pSample =
        min (min
          (min (KellyCriterion.calculate pSample.winRate pSample.avgWin pSample.avgLoss none
              * pSample.portfolioValue)
            (pSample.maxPositionPct * (0.5 + 0.5 * pSample.confidence) / 100
              * pSample.portfolioValue))
          (TIER_LIMITS pSample.assetTier / 100 * pSample.portfolioValue))
          (pSample.maxPositionPct / 100 * pSample.portfolioValue)
      ∧ calculatePositionSize pSample
          ≤ pSample.portfolioValue * pSample.maxPositionPct / 100
      ∧ calculatePositionSize pSample
          ≤ pSample.portfolioValue * TIER_LIMITS pSample.assetTier / 100) :=
  ⟨by with_unfolding_all rfl,
   c2_position_size_min_of_four pSample (by with_unfolding_all rfl)⟩

/-- C3: KellyCriterion.calculate stays in [0,1] for win_rate in [0,1],
avg_win > 0, avg_loss > 0 and any fractional multiplier, and returns exactly
0 whenever win_rate < 0.51, or avg_loss = 0, or avg_win <= 0. -/
theorem c3_kelly_range_and_failsafe :
    ∀ (winRate avgWin avgLoss : ℚ) (fractional : Option ℚ),
      (0 ≤ winRate → winRate ≤ 1 → 0 < avgWin → 0 < avgLoss →
        0 ≤ KellyCriterion.calculate winRate avgWin avgLoss fractional
          ∧ KellyCriterion.calculate winRate avgWin avgLoss fractional ≤ 1)
      ∧ (winRate < 51/100 → KellyCriterion.calculate winRate avgWin avgLoss fractional = 0)
      ∧ (avgLoss = 0 → KellyCriterion.calculate winRate avgWin avgLoss fractional = 0)
      ∧ (avgWin ≤ 0 → KellyCriterion.calculate winRate avgWin avgLoss fractional = 0) := by
  intro winRate avgWin avgLoss fractional
  refine ⟨?_, ?_, ?_, ?_⟩
  · intro _ _ _ _
    simp only [KellyCriterion.calculate]
    split_ifs
    · exact ⟨le_refl 0, by norm_num⟩
    · exact ⟨le_refl 0, by norm_num⟩
    · exact ⟨le_refl 0, by norm_num⟩
    · exact ⟨le_max_left _ _, max_le (by norm_num) (min_le_right _ _)⟩
  · intro h
    have hlt : winRate < MIN_WIN_RATE := by
      rw [show MIN_WIN_RATE = 51/100 from by norm_num [MIN_WIN_RATE]]
      exact h
    simp only [KellyCriterion.calculate]
    rw [if_pos hlt]
  · intro h
    simp only [KellyCriterion.calculate]
    split_ifs <;> rfl
  · intro h
    simp only [KellyCriterion.calculate]
    split_ifs <;> rfl

/-- C3 witness: the range conclusion at (0.6, 2, 1, fractional 0.25) with
each hypothesis discharged, and the zero conclusion at win_rate 0.3. -/
theorem c3_witness :
    (0 ≤ KellyCriterion.calculate 0.6 2 1 (some 0.25)
      ∧ KellyCriterion.calculate 0.6 2 1 (some 0.25) ≤ 1)
    ∧ ((0.3 : ℚ) < 51/100 ∧ KellyCriterion.calculate 0.3 2 1 none = 0) :=
  ⟨(c3_kelly_range_and_failsafe 0.6 2 1 (some 0.25)).1
      (by norm_num) (by norm_num) (by norm_num) (by norm_num),
   by norm_num,
   (c3_kelly_range_and_failsafe 0.3 2 1 none).2.1 (by norm_num)⟩

/-- C9 (amended): doubling the fractional multiplier exactly doubles
KellyCriterion.calculate's output whenever the doubled fractional-Kelly
product 2 x f x kelly stays at most 1, so that the upper clamp of the
max(0, min(., 1)) bracket does not bind.  (As literally stated for every
fractional multiplier the claim is false: the clamp at 1 breaks linearity,
see the counterexample.) -/
theorem c9_kelly_fractional_linearity :
    ∀ (winRate avgWin avgLoss f : ℚ),
      2 * f * kellyRaw winRate avgWin avgLoss ≤ 1 →
      KellyCriterion.calculate winRate avgWin avgLoss (some (2 * f)) =
        2 * KellyCriterion.calculate winRate avgWin avgLoss (some f) := by
  intro winRate avgWin avgLoss f hle
  simp only [kellyRaw] at hle
  simp only [KellyCriterion.calculate, Option.getD_some]
  split_ifs
  · ring
  · ring
  · ring
  · set k := (winRate * (avgWin / avgLoss) - (1 - winRate)) / (avgWin / avgLoss) with hk
    rcases le_or_lt (k * f) 0 with hkf | hkf
    · have h2f : k * (2 * f) ≤ 0 := by nlinarith
      rw [min_eq_left (by linarith : k * (2 * f) ≤ 1), max_eq_left h2f,
        min_eq_left (by linarith : k * f ≤ 1), max_eq_left hkf]
      ring
    · have h2f1 : k * (2 * f) ≤ 1 := by nlinarith
      have hkf1 : k * f ≤ 1 := by nlinarith
      rw [min_eq_left h2f1, max_eq_right (by nlinarith : (0:ℚ) ≤ k * (2 * f)),
        min_eq_left hkf1, max_eq_right hkf.le]
      ring

/-- C9 witness: at win_rate 0.6, avg_win 2, avg_loss 1 the raw kelly is 0.4;
with fractional 0.1 the doubled product 0.08 is within the clamp, and the
output with fractional 0.2 is exactly twice the output with 0.1. -/
theorem c9_witness :
    2 * (1/10 : ℚ) * kellyRaw 0.6 2 1 ≤ 1
    ∧ KellyCriterion.calculate 0.6 2 1 (some (2 * (1/10))) =
        2 * KellyCriterion.calculate 0.6 2 1 (some (1/10)) :=
  ⟨of_decide_eq_true (by with_unfolding_all rfl),
   c9_kelly_fractional_linearity 0.6 2 1 (1/10)
     (of_decide_eq_true (by with_unfolding_all rfl))⟩

/-- C9 counterexample: with win_rate 1, avg_win 1, avg_loss 1 the raw kelly
is 1; fractional 0.6 yields 0.6 but fractional 1.2 is clamped to 1, not
1.2 = 2 x 0.6, refuting linearity as universally stated. -/
theorem c9_counterexample :
    KellyCriterion.calculate 1 1 1 (some (6/5)) = 1
    ∧ KellyCriterion.calculate 1 1 1 (some (3/5)) = 3/5
    ∧ KellyCriterion.calculate 1 1 1 (some (2 * (3/5)))
        ≠ 2 * KellyCriterion.calculate 1 1 1 (some (3/5)) :=
  ⟨by with_unfolding_all rfl, by with_unfolding_all rfl,
   of_decide_eq_true (by with_unfolding_all rfl)⟩

/-- With default configs, a bank whose only OPEN breaker is DAILY_LOSS
(tripped at time t) disallows trading while now - t < 120 and allows it
again, auto-closing the breaker and clearing its trip time, once
now - t reaches 120 minutes. -/
theorem sweep_single_open (cb : CircuitBreaker) (t now : ℚ)
    (hconf : cb.configs = DEFAULT_CONFIGS)
    (hst : ∀ bt, bt ≠ BreakerType.dailyLoss → cb.states bt = .closed)
    (hdl : cb.states .dailyLoss = .open')
    (htrip : cb.tripTimes .dailyLoss = some t) :
    (now - t < 120 → isTradingAllowed cb now = (cb, false))
    ∧ (120 ≤ now - t →
        (isTradingAllowed cb now).2 = true
        ∧ (isTradingAllowed cb now).1.states .dailyLoss = .closed
        ∧ (isTradingAllowed cb now).1.tripTimes .dailyLoss = none) := by
  constructor
  · intro hlt
    have hexp : isCoolingPeriodExpired cb .dailyLoss now = false := by
      simp only [isCoolingPeriodExpired, htrip, hconf, DEFAULT_CONFIGS]
      simp only [decide_eq_false_iff_not, not_le]
      push_cast
      linarith
    simp [isTradingAllowed, BreakerType.all, tradingAllowedSweep, hdl, hexp]
  · intro hge
    have hexp : isCoolingPeriodExpired cb .dailyLoss now = true := by
      simp only [isCoolingPeriodExpired, htrip, hconf, DEFAULT_CONFIGS]
      simp only [decide_eq_true_eq]
      push_cast
      linarith
    simp [isTradingAllowed, BreakerType.all, tradingAllowedSweep, hdl, hexp,
      Function.update, hst]

/-- C4: with the default 5% threshold and all breakers initially CLOSED,
check_daily_loss does not trip at a computed loss of exactly 5.00% (strict >)
but trips at 5.01%, recording the trip time; afterwards is_trading_allowed
returns false while the elapsed time since the trip is under the 120-minute
cooldown and returns true once it reaches the cooldown, at which point the
DAILY_LOSS breaker auto-transitions back to CLOSED with its trip timestamp
cleared. -/
theorem c4_daily_loss_breaker :
    ∀ (cb : CircuitBreaker) (startValue current5 current501 t : ℚ),
      cb.configs = DEFAULT_CONFIGS →
      (∀ bt, cb.states bt = .closed) →
      0 < startValue →
      ((((startValue - current5) / startValue) * 100 = 5 →
        checkDailyLoss cb current5 startValue t = (cb, false))
      ∧ (((startValue - current501) / startValue) * 100 = 501/100 →
          (checkDailyLoss cb current501 startValue t).2 = true
          ∧ (checkDailyLoss cb current501 startValue t).1.states .dailyLoss = .open'
          ∧ (checkDailyLoss cb current501 startValue t).1.tripTimes .dailyLoss = some t
          ∧ (∀ now, now - t < 120 →
              isTradingAllowed (checkDailyLoss cb current501 startValue t).1 now
                = ((checkDailyLoss cb current501 startValue t).1, false))
          ∧ (∀ now, 120 ≤ now - t →
              (isTradingAllowed (checkDailyLoss cb current501 startValue t).1 now).2 = true
              ∧ (isTradingAllowed (checkDailyLoss cb current501 startValue t).1
                  now).1.states .dailyLoss = .closed
              ∧ (isTradingAllowed (checkDailyLoss cb current501 startValue t).1
                  now).1.tripTimes .dailyLoss = none))) := by
  intro cb startValue current5 current501 t hconf hst hpv
  constructor
  · intro h5
    simp only [checkDailyLoss, hconf, DEFAULT_CONFIGS, h5, hpv.not_le]
    norm_num
  · intro h501
    have hcdl : checkDailyLoss cb current501 startValue t
        = (tripBreaker cb .dailyLoss 5.0 (((startValue - current501) / startValue) * 100)
            "Daily loss exceeds threshold" t, true) := by
      simp only [checkDailyLoss, hconf, DEFAULT_CONFIGS, hpv.not_le]
      rw [h501]
      norm_num
    rw [hcdl]
    have hdl : (tripBreaker cb .dailyLoss 5.0 (((startValue - current501) / startValue) * 100)
        "Daily loss exceeds threshold" t).states .dailyLoss = .open' := by
      simp [tripBreaker, Function.update]
    have htrip : (tripBreaker cb .dailyLoss 5.0 (((startValue - current501) / startValue) * 100)
        "Daily loss exceeds threshold" t).tripTimes .dailyLoss = some t := by
      simp [tripBreaker, Function.update]
    have hst' : ∀ bt, bt ≠ BreakerType.dailyLoss →
        (tripBreaker cb .dailyLoss 5.0 (((startValue - current501) / startValue) * 100)
          "Daily loss exceeds threshold" t).states bt = .closed := by
      intro bt hbt
      simp [tripBreaker, Function.update, hbt, hst bt]
    refine ⟨rfl, hdl, htrip, ?_, ?_⟩
    · intro now hlt
      exact (sweep_single_open _ t now (by simp [tripBreaker, hconf]) hst' hdl htrip).1 hlt
    · intro now hge
      exact (sweep_single_open _ t now (by simp [tripBreaker, hconf]) hst' hdl htrip).2 hge

/-- C4 witness: on a fresh default breaker bank, a drop from 10000 to 9500
(exactly 5.00%) does not trip; a drop to 9499 (5.01%) trips at time 0; and
trading is disallowed at minute 119 but allowed again at minute 120 with the
breaker back to CLOSED. -/
theorem c4_witness :
    (checkDailyLoss CircuitBreaker.init 9500 10000 0 = (CircuitBreaker.init, false))
    ∧ (checkDailyLoss CircuitBreaker.init 9499 10000 0).2 = true
    ∧ isTradingAllowed (checkDailyLoss CircuitBreaker.init 9499 10000 0).1 119
        = ((checkDailyLoss CircuitBreaker.init 9499 10000 0).1, false)
    ∧ (isTradingAllowed (checkDailyLoss CircuitBreaker.init 9499 10000 0).1 120).2 = true
    ∧ (isTradingAllowed (checkDailyLoss CircuitBreaker.init 9499 10000 0).1 120).1.states
        .dailyLoss = .closed := by
  have h := c4_daily_loss_breaker CircuitBreaker.init 10000 9500 9499 0 rfl (fun bt => rfl)
    (by norm_num)
  refine ⟨h.1 (by norm_num), (h.2 (by norm_num)).1, ?_, ?_, ?_⟩
  · exact (h.2 (by norm_num)).2.2.2.1 119 (by norm_num)
  · exact ((h.2 (by norm_num)).2.2.2.2 120 (by norm_num)).1
  · exact ((h.2 (by norm_num)).2.2.2.2 120 (by norm_num)).2.1

/-- C5: a fill_order call on a sell order with no open position in its
symbol, or whose quantity exceeds the held quantity, returns null and leaves
the cash balance, the open-position map, and the trade ledger unchanged
(the embedding is total: nothing is raised on this path). -/
theorem c5_sell_failure_frame :
    ∀ (e : PaperTradingEngine) (oid : ℕ) (price t : ℚ) (o : Order),
      lookupKey oid e.orders = some o → o.side = "sell" →
      (lookupKey o.symbol e.positions = none
        ∨ ∃ pos, lookupKey o.symbol e.positions = some pos ∧ pos.quantity < o.quantity) →
      (fillOrder e oid price t).2 = none
      ∧ (fillOrder e oid price t).1.cash = e.cash
      ∧ (fillOrder e oid price t).1.positions = e.positions
      ∧ (fillOrder e oid price t).1.trades = e.trades := by
  intro e oid price t o hl hside hfail
  have hnb : ¬o.side = "buy" := by rw [hside]; decide
  simp only [fillOrder, hl]
  by_cases hstat : o.status = "pending"
  · rw [if_neg (by simp [hstat])]
    by_cases hblk : limitBlocks o price = true
    · rw [if_pos hblk]
      exact ⟨rfl, rfl, rfl, rfl⟩
    · rw [if_neg hblk, if_neg hnb]
      rcases hfail with hnone | ⟨pos, hpos, hq⟩
      · rw [hnone]
        exact ⟨rfl, rfl, rfl, rfl⟩
      · rw [hpos]
        dsimp only
        rw [if_pos hq]
        exact ⟨rfl, rfl, rfl, rfl⟩
  · rw [if_pos hstat]
    exact ⟨rfl, rfl, rfl, rfl⟩

/-- C5 witness: the pending sell of 5 BBB against an engine holding no
positions is rejected with null and an unchanged frame. -/
theorem c5_witness :
    (fillOrder egNoPos 1 10 0).2 = none
    ∧ (fillOrder egNoPos 1 10 0).1.cash = egNoPos.cash
    ∧ (fillOrder egNoPos 1 10 0).1.positions = egNoPos.positions
    ∧ (fillOrder egNoPos 1 10 0).1.trades = egNoPos.trades :=
  c5_sell_failure_frame egNoPos 1 10 0 strandedSellOrder (by with_unfolding_all rfl) rfl
    (Or.inl (by with_unfolding_all rfl))

/-- C7 (amended): for every pending LIMIT order with a set, nonzero limit
price, fill_order enforces the resting-limit condition: a buy fills only
when market <= limit and a sell only when market >= limit, the violated case
being a complete no-op that returns null and leaves the order pending.
(As literally stated for every pending LIMIT order the claim is false: the
source's truthiness guard skips the check when the limit price is the falsy
Decimal zero, see the counterexample.) -/
theorem c7_limit_resting_condition :
    ∀ (e : PaperTradingEngine) (oid : ℕ) (price t : ℚ) (o : Order) (l : ℚ),
      lookupKey oid e.orders = some o → o.status = "pending" →
      o.orderType = "limit" → o.limitPrice = some l → l ≠ 0 →
      ((o.side = "buy" → l < price → fillOrder e oid price t = (e, none))
      ∧ (o.side = "sell" → price < l → fillOrder e oid price t = (e, none))) := by
  intro e oid price t o l hl hstat htype hlp hlz
  constructor
  · intro hs hp
    have hblk : limitBlocks o price = true := by
      simp [limitBlocks, htype, hlp, hlz, hs, hp]
    simp only [fillOrder, hl]
    rw [if_neg (by simp [hstat]), if_pos hblk]
  · intro hs hp
    have hblk : limitBlocks o price = true := by
      simp [limitBlocks, htype, hlp, hlz, hs, hp]
    simp only [fillOrder, hl]
    rw [if_neg (by simp [hstat]), if_pos hblk]

/-- C7 witness: a pending limit buy resting at 50 is a complete no-op when
filled against a market price of 60. -/
theorem c7_witness : fillOrder egLimit 1 60 0 = (egLimit, none) :=
  (c7_limit_resting_condition egLimit 1 60 0 limitBuyOrder 50 (by with_unfolding_all rfl)
    rfl rfl rfl (by norm_num)).1 rfl (by norm_num)

/-- C7 counterexample: a pending limit BUY whose limit price is the falsy
Decimal("0") fills at a market price of 10 even though 10 > 0, because the
source's `and order.limit_price` truthiness guard skips the resting-limit
check entirely. -/
theorem c7_counterexample :
    zeroLimitOrder.orderType = "limit" ∧ zeroLimitOrder.side = "buy"
    ∧ zeroLimitOrder.limitPrice = some 0 ∧ (0 : ℚ) < 10
    ∧ lookupKey 1 egZeroLimit.orders = some zeroLimitOrder
    ∧ ((fillOrder egZeroLimit 1 10 0).2).isSome = true :=
  ⟨rfl, rfl, rfl, by norm_num, by with_unfolding_all rfl, by with_unfolding_all rfl⟩

/-- C8: when a buy fill (pending, limit condition met, affordable) adds to
an existing open position, the position's entry price becomes the
quantity-weighted average (old_entry x old_qty + fill_price x new_qty) /
(old_qty + new_qty), computed with the pre-increment old quantity, and its
quantity becomes old_qty + new_qty; with no existing position a new long
position is opened at the fill price. -/
theorem c8_weighted_average_entry :
    ∀ (e : PaperTradingEngine) (oid : ℕ) (price t : ℚ) (o : Order),
      lookupKey oid e.orders = some o → o.status = "pending" → o.side = "buy" →
      limitBlocks o price = false →
      calcSlippage e price o.side * o.quantity + calcCommission e o.quantity ≤ e.cash →
      0 < o.quantity →
      ((∀ pos : Position, lookupKey o.symbol e.positions = some pos → 0 < pos.quantity →
          lookupKey o.symbol (fillOrder e oid price t).1.positions
            = some { pos with
                entryPrice := (pos.entryPrice * pos.quantity
                  + calcSlippage e price o.side * o.quantity) / (pos.quantity + o.quantity),
                quantity := pos.quantity + o.quantity })
      ∧ (lookupKey o.symbol e.positions = none →
          lookupKey o.symbol (fillOrder e oid price t).1.positions
            = some ⟨o.symbol, o.quantity, calcSlippage e price o.side, t, "long", price, 0⟩)) := by
  intro e oid price t o hl hstat hside hblk hcost hq
  have hfill : ∀ e2 : PaperTradingEngine,
      (finishFill e2 o oid (calcSlippage e price o.side) (calcCommission e o.quantity) t).1.positions
        = e2.positions := fun e2 => rfl
  constructor
  · intro pos hpos hposq
    simp only [fillOrder, hl]
    rw [if_neg (by simp [hstat]), if_neg (by simp [hblk]), if_pos hside,
      if_neg (not_lt.mpr hcost), hpos]
    dsimp only
    rw [hfill]
    dsimp only
    rw [lookupKey_updateVal, hpos]
    rfl
  · intro hnone
    simp only [fillOrder, hl]
    rw [if_neg (by simp [hstat]), if_neg (by simp [hblk]), if_pos hside,
      if_neg (not_lt.mpr hcost), hnone]
    dsimp only
    rw [hfill]
    dsimp only
    rw [lookupKey_append_of_none _ hnone]
    simp [lookupKey]

/-- C8 witness: adding a 10-share buy filled at 60 to the 10-share AAA
position entered at 50 yields entry price 55 = (50x10 + 60x10)/20 and
quantity 20. -/
theorem c8_witness :
    lookupKey "AAA" (fillOrder egAdd 2 60 1).1.positions
      = some { posAAA with entryPrice := 55, quantity := 20 } := by
  have h := (c8_weighted_average_entry egAdd 2 60 1 addBuyOrder (by with_unfolding_all rfl)
    rfl rfl (by with_unfolding_all rfl) (of_decide_eq_true (by with_unfolding_all rfl))
    (of_decide_eq_true (by with_unfolding_all rfl))).1 posAAA (by with_unfolding_all rfl)
    (of_decide_eq_true (by with_unfolding_all rfl))
  exact h.trans (by with_unfolding_all rfl)

/-- C10: when fill_order fails softly (insufficient cash on a buy, missing
position or oversized quantity on a sell) the pending order's status is
mutated to cancelled and nothing else changes (cash, positions, trades and
the order counter are untouched), so the same order can never be filled on
a retry (a non-pending order is a complete no-op); by contrast a limit
order whose resting condition is unmet is left pending, the call being a
complete no-op. -/
theorem c10_soft_fail_cancels :
    ∀ (e : PaperTradingEngine) (oid : ℕ) (price t : ℚ) (o : Order),
      lookupKey oid e.orders = some o →
      ((o.status = "pending" → limitBlocks o price = false → o.side = "buy" →
          e.cash < calcSlippage e price o.side * o.quantity + calcCommission e o.quantity →
          fillOrder e oid price t = ({ e with orders := cancelAt oid e.orders }, none))
      ∧ (o.status = "pending" → limitBlocks o price = false → o.side = "sell" →
          (lookupKey o.symbol e.positions = none
            ∨ ∃ pos, lookupKey o.symbol e.positions = some pos ∧ pos.quantity < o.quantity) →
          fillOrder e oid price t = ({ e with orders := cancelAt oid e.orders }, none))
      ∧ (o.status = "cancelled" → fillOrder e oid price t = (e, none))
      ∧ (o.status = "pending" → limitBlocks o price = true →
          fillOrder e oid price t = (e, none))) := by
  intro e oid price t o hl
  refine ⟨?_, ?_, ?_, ?_⟩
  · intro hstat hblk hside hcost
    simp only [fillOrder, hl]
    rw [if_neg (by simp [hstat]), if_neg (by simp [hblk]), if_pos hside, if_pos hcost]
  · intro hstat hblk hside hfail
    have hnb : ¬o.side = "buy" := by rw [hside]; decide
    simp only [fillOrder, hl]
    rw [if_neg (by simp [hstat]), if_neg (by simp [hblk]), if_neg hnb]
    rcases hfail with hnone | ⟨pos, hpos, hq⟩
    · rw [hnone]
    · rw [hpos]
      dsimp only
      rw [if_pos hq]
  · intro hstat
    simp only [fillOrder, hl]
    rw [if_pos (by rw [hstat]; decide)]
  · intro hstat hblk
    simp only [fillOrder, hl]
    rw [if_neg (by simp [hstat]), if_pos hblk]

/-- C10 witness: the unaffordable pending buy is cancelled in place with no
other change; the oversized sell is cancelled likewise; the already
cancelled order is a no-op on retry; and the unmet resting limit buy is a
no-op left pending. -/
theorem c10_witness :
    fillOrder egPoor 1 100 0 = ({ egPoor with orders := cancelAt 1 egPoor.orders }, none)
    ∧ fillOrder egOversize 2 10 0
        = ({ egOversize with orders := cancelAt 2 egOversize.orders }, none)
    ∧ fillOrder egCancelled 1 100 0 = (egCancelled, none)
    ∧ fillOrder egLimit 1 60 0 = (egLimit, none) :=
  ⟨(c10_soft_fail_cancels egPoor 1 100 0 bigBuyOrder (by with_unfolding_all rfl)).1
      rfl (by with_unfolding_all rfl) rfl (of_decide_eq_true (by with_unfolding_all rfl)),
   (c10_soft_fail_cancels egOversize 2 10 0 oversizeSellOrder (by with_unfolding_all rfl)).2.1
      rfl (by with_unfolding_all rfl) rfl
      (Or.inr ⟨posAAA, by with_unfolding_all rfl, of_decide_eq_true (by with_unfolding_all rfl)⟩),
   (c10_soft_fail_cancels egCancelled 1 100 0 { bigBuyOrder with status := "cancelled" }
      (by with_unfolding_all rfl)).2.2.1 rfl,
   (c10_soft_fail_cancels egLimit 1 60 0 limitBuyOrder
      (by with_unfolding_all rfl)).2.2.2 rfl (by with_unfolding_all rfl)⟩

/-- C6 (amended): PositionSizer construction raises a validation error
exactly when portfolio value <= 0, win rate or confidence is out of [0,1],
avg win <= 0 or avg loss <= 0 (validateParams returns ok iff none of these
hold); but PaperTradingEngine.submit_order performs no validation at all —
for every quantity, including <= 0, it records a pending order with that
quantity — and the execution-variant execute_buy rejects a non-positive
quantity or price by returning False, a soft failure rather than an
exception.  (As literally stated the claim is false: submit_order does not
raise on quantity <= 0, see the counterexample.) -/
theorem c6_validation_behavior :
    (∀ p : PositionSizeParams,
      validateParams p = Except.ok ()
        ↔ ¬(p.portfolioValue ≤ 0 ∨ ¬(0 ≤ p.winRate ∧ p.winRate ≤ 1)
            ∨ ¬(0 ≤ p.confidence ∧ p.confidence ≤ 1) ∨ p.avgWin ≤ 0 ∨ p.avgLoss ≤ 0))
    ∧ (∀ (e : PaperTradingEngine) (symbol side : String) (quantity : ℚ)
        (orderType : String) (limitPrice : Option ℚ) (now : ℚ),
        (submitOrder e symbol side quantity orderType limitPrice now).2.status = "pending"
        ∧ (submitOrder e symbol side quantity orderType limitPrice now).2.quantity = quantity
        ∧ (e.orderCounter + 1, (submitOrder e symbol side quantity orderType limitPrice now).2)
            ∈ (submitOrder e symbol side quantity orderType limitPrice now).1.orders)
    ∧ (∀ (e : ExecEngine) (symbol : String) (quantity price : ℚ)
        (stopLoss takeProfit : Option ℚ) (strategy : String) (confidence now : ℚ),
        quantity ≤ 0 ∨ price ≤ 0 →
        executeBuy e symbol quantity price stopLoss takeProfit strategy confidence now
          = (e, false)) := by
  refine ⟨?_, ?_, ?_⟩
  · intro p
    constructor
    · intro hok hbad
      unfold validateParams at hok
      split_ifs at hok with h1 h2 h3 h4 h5
      all_goals first
        | exact Except.noConfusion hok
        | tauto
    · intro hn
      push_neg at hn
      obtain ⟨ha, hb, hc, hd, he⟩ := hn
      unfold validateParams
      rw [if_neg (not_le.mpr ha), if_neg (by push_neg; exact hb),
        if_neg (by push_neg; exact hc), if_neg (not_le.mpr hd), if_neg (not_le.mpr he)]
  · intro e symbol side quantity orderType limitPrice now
    refine ⟨rfl, rfl, ?_⟩
    exact List.mem_append_right _ (List.mem_singleton.mpr rfl)
  · intro e symbol quantity price stopLoss takeProfit strategy confidence now h
    rcases h with hq | hp
    · simp only [executeBuy]
      rw [if_pos hq]
    · by_cases hq2 : quantity ≤ 0
      · simp only [executeBuy]
        rw [if_pos hq2]
      · simp only [executeBuy]
        rw [if_neg hq2, if_pos hp]

/-- C6 witness: a sample of each conjunct — the valid growth-tier parameters
pass validation via the characterization, a submit of quantity -3 is
recorded pending, and execute_buy of quantity 0 soft-fails. -/
theorem c6_witness :
    validateParams pSample = Except.ok ()
    ∧ (submitOrder (initEngine 100 true 5 true 0.005) "X" "buy" (-3) "market" none 0).2.status
        = "pending"
    ∧ executeBuy egExec "AAA" 0 50 none none "manual" 0.5 0 = (egExec, false) :=
  ⟨(c6_validation_behavior.1 pSample).mpr (by norm_num [pSample]),
   (c6_validation_behavior.2.1 (initEngine 100 true 5 true 0.005) "X" "buy" (-3)
      "market" none 0).1,
   c6_validation_behavior.2.2 egExec "AAA" 0 50 none none "manual" 0.5 0
      (Or.inl (by norm_num))⟩

/-- C6 counterexample: submit_order given quantity 0 does not raise a
validation error: it succeeds, returning a PENDING order of quantity 0 that
is recorded in the order table. -/
theorem c6_counterexample :
    (submitOrder (initEngine 100 true 5 true 0.005) "AAA" "buy" 0 "market" none 0).2.status
        = "pending"
    ∧ (submitOrder (initEngine 100 true 5 true 0.005) "AAA" "buy" 0 "market" none 0).2.quantity
        = 0
    ∧ lookupKey 1
        (submitOrder (initEngine 100 true 5 true 0.005) "AAA" "buy" 0 "market" none 0).1.orders
        = some (submitOrder (initEngine 100 true 5 true 0.005) "AAA" "buy" 0 "market" none 0).2 :=
  ⟨rfl, rfl, by with_unfolding_all rfl⟩
